import Mathlib

/-
Verification of the multiplayer room / matchmaking core of the fighter-jet
game (src/fighter-jet-game/redis_client.py).

The Redis keyspace is shallowly embedded as a record of association lists,
one per key family (room:{code}, room_players:{code}, player_room:{pid},
player:{pid}, matchmaking:{mode}, in_queue:{pid}), together with a shared
per-key TTL map.  Every operation below is a direct translation of the
corresponding Python function; `Option` results model Python exceptions
(`none` = a raised KeyError), and randomness (room-code generation) and
wall-clock time are passed in as explicit parameters.  The JSON
encode/decode round trip that the Python code performs on hash fields is
the identity on the data the operations inspect, so hash fields are held
directly as typed values.  Sorted-set insertion (`zadd` keyed by the
current timestamp) is modelled as move-to-back insertion, which is its
behaviour under the code's strictly increasing clock.
-/

namespace FighterJet

/-- Association-list lookup, modelling a Redis key read. -/
def kvGet {α : Type} : List (String × α) → String → Option α
  | [], _ => none
  | (k', v) :: rest, k => if k' = k then some v else kvGet rest k

/-- Association-list update, modelling a Redis key write (overwrite or add). -/
def kvSet {α : Type} : List (String × α) → String → α → List (String × α)
  | [], k, v => [(k, v)]
  | (k', v') :: rest, k, v =>
      if k' = k then (k, v) :: rest else (k', v') :: kvSet rest k v

/-- Association-list deletion, modelling a Redis key delete. -/
def kvDel {α : Type} : List (String × α) → String → List (String × α)
  | [], _ => []
  | (k', v') :: rest, k =>
      if k' = k then kvDel rest k else (k', v') :: kvDel rest k

/-- One roster entry of a room's `players` JSON list. -/
structure Player where
  id : String
  name : String
  ready : Bool
  slot : Nat
deriving Repr, DecidableEq

/-- The fields a `room:{code}` hash can hold; `none` = field absent from the hash. -/
structure RoomHash where
  code : Option String := none
  mode : Option String := none
  host_id : Option String := none
  host_name : Option String := none
  status : Option String := none
  difficulty : Option String := none
  created_at : Option String := none
  players : Option (List Player) := none
  started_at : Option String := none
  ended_at : Option String := none
  winner_id : Option String := none
deriving Repr, DecidableEq

/-- One member of a `matchmaking:{mode}` sorted set (the decoded JSON string). -/
structure QEntry where
  id : String
  name : String
  difficulty : String
  joined_at : String
deriving Repr, DecidableEq

/-- The Redis keyspace used by the room / matchmaking layer. -/
structure Store where
  rooms : List (String × RoomHash) := []
  roomPlayers : List (String × List String) := []
  playerRoom : List (String × String) := []
  playerHash : List (String × List (String × String)) := []
  queues : List (String × List QEntry) := []
  inQueue : List (String × String) := []
  ttl : List (String × Nat) := []
deriving Repr, DecidableEq

def emptyStore : Store := {}

def withRooms (s : Store) (v : List (String × RoomHash)) : Store := { s with rooms := v }

def withRoomPlayers (s : Store) (v : List (String × List String)) : Store := { s with roomPlayers := v }

def withPlayerRoom (s : Store) (v : List (String × String)) : Store := { s with playerRoom := v }

def withPlayerHash (s : Store) (v : List (String × List (String × String))) : Store := { s with playerHash := v }

def withQueues (s : Store) (v : List (String × List QEntry)) : Store := { s with queues := v }

def withInQueue (s : Store) (v : List (String × String)) : Store := { s with inQueue := v }

def withTtl (s : Store) (v : List (String × Nat)) : Store := { s with ttl := v }

def PLAYER_TTL : Nat := 30
def ROOM_TTL : Nat := 300
def MATCHMAKING_TTL : Nat := 120

/-- Set the TTL of a key (every call site follows a write that created the key). -/
def setTtl (s : Store) (key : String) (t : Nat) : Store :=
  withTtl s (kvSet s.ttl key t)

/-- The contents of the `matchmaking:{mode}` sorted set, oldest first. -/
def queueOf (s : Store) (mode : String) : List QEntry :=
  (kvGet s.queues mode).getD []

/-- get_player: hgetall of `player:{pid}`; `none` when the hash is absent. -/
def get_player (s : Store) (player_id : String) : Option (List (String × String)) :=
  kvGet s.playerHash player_id

/-- update_player: returns false and writes nothing when the hash is absent;
otherwise merge-writes the updates and refreshes the 30s TTL. -/
def update_player (s : Store) (player_id : String)
    (updates : List (String × String)) : Bool × Store :=
  match kvGet s.playerHash player_id with
  | none => (false, s)
  | some fields =>
      let fields := updates.foldl (fun acc kv => kvSet acc kv.1 kv.2) fields
      let s := withPlayerHash s (kvSet s.playerHash player_id fields)
      let s := setTtl s ("player:" ++ player_id) PLAYER_TTL
      (true, s)

/-- create_room: writes the room hash (hset merges into any hash already at
that code), seats the host as the single roster entry, sets TTLs and the
host's player→room back-reference.  `code` stands for the randomly
generated room code, `now` for `datetime.now().isoformat()`. -/
def create_room (s : Store) (host_id host_name mode difficulty code now : String) :
    String × Store :=
  let old := (kvGet s.rooms code).getD {}
  let rm : RoomHash :=
    { old with
      code := some code, mode := some mode, host_id := some host_id,
      host_name := some host_name, status := some "waiting",
      difficulty := some difficulty, created_at := some now,
      players := some [{ id := host_id, name := host_name, ready := false, slot := 1 }] }
  let s := withRooms s (kvSet s.rooms code rm)
  let s := setTtl s ("room:" ++ code) ROOM_TTL
  let members := (kvGet s.roomPlayers code).getD []
  let members := if members.contains host_id then members else members ++ [host_id]
  let s := withRoomPlayers s (kvSet s.roomPlayers code members)
  let s := setTtl s ("room_players:" ++ code) ROOM_TTL
  let s := withPlayerRoom s (kvSet s.playerRoom host_id code)
  let s := setTtl s ("player_room:" ++ host_id) ROOM_TTL
  (code, s)

/-- get_room: hgetall of `room:{code}`; `none` when absent. -/
def get_room (s : Store) (code : String) : Option RoomHash :=
  kvGet s.rooms code

/-- Result of join_room: the Python function returns an error dict, or the
room dict (both for a fresh join and for an already-seated caller). -/
inductive JoinResult where
  | roomNotFound
  | gameAlreadyStarted
  | roomFull
  | joined (room : RoomHash)
deriving Repr, DecidableEq

/-- join_room: error checks run in source order (absent, status, capacity)
before the already-seated check.  The outer `none` models the KeyError the
Python code raises when the hash lacks a `status` or `players` field. -/
def join_room (s : Store) (code player_id player_name : String) :
    Option JoinResult × Store :=
  match get_room s code with
  | none => (some .roomNotFound, s)
  | some room =>
      match room.status with
      | none => (none, s)
      | some st =>
          if st ≠ "waiting" then (some .gameAlreadyStarted, s)
          else
            match room.players with
            | none => (none, s)
            | some players =>
                if players.length ≥ 2 then (some .roomFull, s)
                else if players.any (fun p => p.id == player_id) then
                  (some (.joined room), s)
                else
                  let players := players ++
                    [{ id := player_id, name := player_name, ready := false, slot := 2 }]
                  let s := withRooms s (kvSet s.rooms code { room with players := some players })
                  let members := (kvGet s.roomPlayers code).getD []
                  let members := if members.contains player_id then members else members ++ [player_id]
                  let s := withRoomPlayers s (kvSet s.roomPlayers code members)
                  let s := setTtl s ("room:" ++ code) ROOM_TTL
                  let s := setTtl s ("room_players:" ++ code) ROOM_TTL
                  let s := withPlayerRoom s (kvSet s.playerRoom player_id code)
                  let s := setTtl s ("player_room:" ++ player_id) ROOM_TTL
                  (some (.joined { room with players := some players }), s)

/-- leave_room: false when the room is absent; removes the player from the
roster, clears the back-reference, deletes an emptied room, promotes the
earliest remaining player when the host left.  `none` models the KeyError
raised when the hash lacks `players` (or, after the roster write, `host_id`). -/
def leave_room (s : Store) (code player_id : String) : Option Bool × Store :=
  match get_room s code with
  | none => (some false, s)
  | some room =>
      match room.players with
      | none => (none, s)
      | some players0 =>
          let players := players0.filter (fun p => p.id != player_id)
          let s := withRoomPlayers s (kvSet s.roomPlayers code (((kvGet s.roomPlayers code).getD []).filter (fun m => m != player_id)))
          let s := withPlayerRoom s (kvDel s.playerRoom player_id)
          let s := withTtl s (kvDel s.ttl ("player_room:" ++ player_id))
          if players.length = 0 then
            let s := withRooms s (kvDel s.rooms code)
            let s := withTtl s (kvDel s.ttl ("room:" ++ code))
            let s := withRoomPlayers s (kvDel s.roomPlayers code)
            let s := withTtl s (kvDel s.ttl ("room_players:" ++ code))
            (some true, s)
          else
            let s := withRooms s (kvSet s.rooms code { room with players := some players })
            match room.host_id with
            | none => (none, s)
            | some h =>
                if h = player_id then
                  match players.head? with
                  | none => (some true, s)
                  | some p0 =>
                      let room' := { room with players := some players, host_id := some p0.id, host_name := some p0.name }
                      let s := withRooms s (kvSet s.rooms code room')
                      (some true, s)
                else (some true, s)

/-- Update the first roster entry with the given id (the Python loop breaks
after the first match). -/
def setReadyList : List Player → String → Bool → List Player
  | [], _, _ => []
  | p :: rest, pid, rd =>
      if p.id = pid then { p with ready := rd } :: rest
      else p :: setReadyList rest pid rd

/-- set_player_ready: `some none` is the Python `None` return for an absent
room; the outer `none` models the KeyError on a hash without `players`. -/
def set_player_ready (s : Store) (code player_id : String) (ready : Bool) :
    Option (Option RoomHash) × Store :=
  match get_room s code with
  | none => (some none, s)
  | some room =>
      match room.players with
      | none => (none, s)
      | some players =>
          let players := setReadyList players player_id ready
          let s := withRooms s (kvSet s.rooms code { room with players := some players })
          let s := setTtl s ("room:" ++ code) ROOM_TTL
          (some (some { room with players := some players }), s)

/-- start_room_game: false when the room is absent, the roster has fewer
than 2 entries, or some entry is not ready; otherwise sets status/started_at
and extends the TTL 4x.  `none` models the KeyError on a missing `players`. -/
def start_room_game (s : Store) (code now : String) : Option Bool × Store :=
  match get_room s code with
  | none => (some false, s)
  | some room =>
      match room.players with
      | none => (none, s)
      | some players =>
          if players.length < 2 then (some false, s)
          else if ¬ players.all (fun p => p.ready) then (some false, s)
          else
            let s := withRooms s (kvSet s.rooms code { room with status := some "playing", started_at := some now })
            let s := setTtl s ("room:" ++ code) (ROOM_TTL * 4)
            (some true, s)

/-- end_room_game: hset creates the hash when absent; sets status/ended_at,
winner_id only when truthy, and collapses the TTL to 60s. -/
def end_room_game (s : Store) (code : String) (winner_id : Option String) (now : String) :
    Store :=
  let old := (kvGet s.rooms code).getD {}
  let rm := { old with status := some "finished", ended_at := some now }
  let rm := match winner_id with
    | some w => if w = "" then rm else { rm with winner_id := some w }
    | none => rm
  let s := withRooms s (kvSet s.rooms code rm)
  setTtl s ("room:" ++ code) 60

/-- join_matchmaking: zadd of the entry keyed by the current timestamp
(move-to-back under the increasing clock), queue TTL refresh, and the
player→mode back-reference with its 2-minute TTL. -/
def join_matchmaking (s : Store) (player_id player_name mode difficulty now : String) :
    Bool × Store :=
  let entry : QEntry := { id := player_id, name := player_name,
                          difficulty := difficulty, joined_at := now }
  let q := (queueOf s mode).filter (fun e => e != entry) ++ [entry]
  let s := withQueues s (kvSet s.queues mode q)
  let s := setTtl s ("matchmaking:" ++ mode) MATCHMAKING_TTL
  let s := withInQueue s (kvSet s.inQueue player_id mode)
  let s := setTtl s ("in_queue:" ++ player_id) MATCHMAKING_TTL
  (true, s)

/-- Remove from a queue the member found by the source's scan-and-break loop:
the oldest entry whose id matches, when there is one. -/
def zremById (q : List QEntry) (player_id : String) : List QEntry :=
  match q.find? (fun e => e.id == player_id) with
  | none => q
  | some e => q.filter (fun x => x != e)

/-- leave_matchmaking: false when the back-reference is absent; otherwise
removes the oldest matching entry from the queue the back-reference names
and deletes the back-reference. -/
def leave_matchmaking (s : Store) (player_id : String) : Bool × Store :=
  match kvGet s.inQueue player_id with
  | none => (false, s)
  | some mode =>
      let q := queueOf s mode
      let s := match q.find? (fun e => e.id == player_id) with
        | none => s
        | some e => withQueues s (kvSet s.queues mode (q.filter (fun x => x != e)))
      let s := withInQueue s (kvDel s.inQueue player_id)
      let s := withTtl s (kvDel s.ttl ("in_queue:" ++ player_id))
      (true, s)

/-- Position loop of get_queue_position: 1-based index of the first entry
with the given id, 0 when none matches. -/
def queuePosAux : Nat → List QEntry → String → Nat
  | _, [], _ => 0
  | i, e :: rest, pid => if e.id = pid then i + 1 else queuePosAux (i + 1) rest pid

def get_queue_position (s : Store) (player_id mode : String) : Nat :=
  queuePosAux 0 (queueOf s mode) player_id

def is_in_queue (s : Store) (player_id : String) : Option String :=
  kvGet s.inQueue player_id

/-- Display name the matcher reads back for the caller:
`player_data.get('name', 'Player') if player_data else 'Player'`. -/
def mmPlayerName (s : Store) (player_id : String) : String :=
  match get_player s player_id with
  | some d => (kvGet d "name").getD "Player"
  | none => "Player"

/-- Result of find_match: either a match (room code, consumed opponent
entry, isHost flag) or no match with the caller's queue position. -/
inductive MatchResult where
  | found (room_code : String) (opponent : QEntry) (isHost : Bool)
  | notFound (queue_position : Nat)
deriving Repr, DecidableEq

/-- find_match: scans the mode queue oldest-first for the first entry whose
id differs from the caller; on a hit removes that entry and its back-
reference, runs leave_matchmaking for the caller, creates a room hosted by
the opponent and joins the caller into it.  `freshCode` stands for the
generated room code, `now` for the clock. -/
def find_match (s : Store) (player_id mode difficulty freshCode now : String) :
    MatchResult × Store :=
  let q := queueOf s mode
  match q.find? (fun e => e.id != player_id) with
  | none => (.notFound (get_queue_position s player_id mode), s)
  | some e =>
      let s := withQueues s (kvSet s.queues mode (q.filter (fun x => x != e)))
      let s := withInQueue s (kvDel s.inQueue e.id)
      let s := withTtl s (kvDel s.ttl ("in_queue:" ++ e.id))
      let s := (leave_matchmaking s player_id).2
      let (room_code, s) := create_room s e.id e.name mode difficulty freshCode now
      let player_name := mmPlayerName s player_id
      let s := (join_room s room_code player_id player_name).2
      (.found room_code e false, s)

/-- set_player: hset of the fields followed by a TTL refresh (creates the
hash when absent). -/
def set_player (s : Store) (player_id : String) (data : List (String × String)) : Store :=
  let fields := data.foldl (fun acc kv => kvSet acc kv.1 kv.2)
    ((kvGet s.playerHash player_id).getD [])
  let s := withPlayerHash s (kvSet s.playerHash player_id fields)
  setTtl s ("player:" ++ player_id) PLAYER_TTL

/-- Value of the last occurrence of a key in an update list (the field that
wins when the updates are merge-written left to right). -/
def lastLookup : List (String × String) → String → Option String
  | [], _ => none
  | kv :: rest, k =>
      match lastLookup rest k with
      | some v => some v
      | none => if kv.1 = k then some kv.2 else none

theorem kvGet_kvSet_self {α : Type} (l : List (String × α)) (k : String) (v : α) :
    kvGet (kvSet l k v) k = some v := by
  induction l with
  | nil => simp [kvGet, kvSet]
  | cons hd tl ih =>
      obtain ⟨k', v'⟩ := hd
      by_cases h : k' = k
      · simp [kvSet, h, kvGet]
      · simp [kvSet, h, kvGet, ih]

theorem kvGet_kvSet_ne {α : Type} (l : List (String × α)) (k k' : String) (v : α)
    (h : k' ≠ k) : kvGet (kvSet l k v) k' = kvGet l k' := by
  induction l with
  | nil => simp [kvGet, kvSet, Ne.symm h]
  | cons hd tl ih =>
      obtain ⟨k0, v0⟩ := hd
      by_cases h0 : k0 = k
      · subst h0
        simp [kvSet, kvGet, Ne.symm h]
      · simp only [kvSet, if_neg h0, kvGet]
        by_cases h1 : k0 = k'
        · simp [h1]
        · simp [h1, ih]

theorem kvGet_kvDel_self {α : Type} (l : List (String × α)) (k : String) :
    kvGet (kvDel l k) k = none := by
  induction l with
  | nil => simp [kvGet, kvDel]
  | cons hd tl ih =>
      obtain ⟨k0, v0⟩ := hd
      by_cases h0 : k0 = k
      · simp [kvDel, h0, ih]
      · simp [kvDel, h0, kvGet, ih]

theorem kvGet_kvDel_ne {α : Type} (l : List (String × α)) (k k' : String)
    (h : k' ≠ k) : kvGet (kvDel l k) k' = kvGet l k' := by
  induction l with
  | nil => simp [kvDel]
  | cons hd tl ih =>
      obtain ⟨k0, v0⟩ := hd
      by_cases h0 : k0 = k
      · subst h0
        simp [kvDel, kvGet, Ne.symm h, ih]
      · simp only [kvDel, if_neg h0, kvGet]
        by_cases h1 : k0 = k'
        · simp [h1]
        · simp [h1, ih]

theorem kvGet_foldl_kvSet (upd : List (String × String)) (fs : List (String × String))
    (k : String) :
    kvGet (upd.foldl (fun acc kv => kvSet acc kv.1 kv.2) fs) k =
      match lastLookup upd k with
      | some v => some v
      | none => kvGet fs k := by
  induction upd generalizing fs with
  | nil => simp [lastLookup]
  | cons kv rest ih =>
      simp only [List.foldl, lastLookup]
      rw [ih]
      cases h : lastLookup rest k with
      | some v => simp
      | none =>
          by_cases hk : kv.1 = k
          · simp [hk, kvGet_kvSet_self]
          · simp [hk, kvGet_kvSet_ne _ _ _ _ (Ne.symm hk)]

/-- Claim C8: update_player returns false and writes nothing when no
presence record exists for the id; when the record exists it merge-writes
the given fields (later duplicates winning, untouched fields preserved),
refreshes the 30-second TTL, and returns true. -/
theorem update_player_spec (s : Store) (player_id : String)
    (updates : List (String × String)) :
    (kvGet s.playerHash player_id = none →
      update_player s player_id updates = (false, s)) ∧
    (∀ fs, kvGet s.playerHash player_id = some fs →
      (update_player s player_id updates).1 = true ∧
      kvGet (update_player s player_id updates).2.playerHash player_id =
        some (updates.foldl (fun acc kv => kvSet acc kv.1 kv.2) fs) ∧
      (∀ k, kvGet (updates.foldl (fun acc kv => kvSet acc kv.1 kv.2) fs) k =
        match lastLookup updates k with
        | some v => some v
        | none => kvGet fs k) ∧
      kvGet (update_player s player_id updates).2.ttl ("player:" ++ player_id) =
        some PLAYER_TTL) := by
  constructor
  · intro h
    simp [update_player, h]
  · intro fs h
    refine ⟨?_, ?_, ?_, ?_⟩
    · simp [update_player, h]
    · simp [update_player, h, withPlayerHash, setTtl, withTtl, kvGet_kvSet_self]
    · intro k
      exact kvGet_foldl_kvSet updates fs k
    · simp [update_player, h, withPlayerHash, setTtl, withTtl, kvGet_kvSet_self]

theorem update_player_spec_witness :
    update_player emptyStore "p1" [("score", "5")] = (false, emptyStore) ∧
    (update_player (set_player emptyStore "p1" [("name", "Alice")]) "p1"
        [("score", "5")]).1 = true ∧
    kvGet (update_player (set_player emptyStore "p1" [("name", "Alice")]) "p1"
        [("score", "5")]).2.ttl ("player:" ++ "p1") = some PLAYER_TTL := by
  refine ⟨(update_player_spec emptyStore "p1" [("score", "5")]).1 (by decide), ?_, ?_⟩
  · exact ((update_player_spec (set_player emptyStore "p1" [("name", "Alice")]) "p1"
      [("score", "5")]).2 [("name", "Alice")] (by decide)).1
  · exact ((update_player_spec (set_player emptyStore "p1" [("name", "Alice")]) "p1"
      [("score", "5")]).2 [("name", "Alice")] (by decide)).2.2.2

/-- Claim C10: end_room_game on an absent code creates a fresh room hash
holding only status='finished', ended_at and (for a truthy winner) a
winner_id, with a 60-second TTL; the re-read room has no players field. -/
theorem end_room_game_absent_spec (s : Store) (code winner now : String)
    (habs : kvGet s.rooms code = none) (hw : winner ≠ "") :
    get_room (end_room_game s code (some winner) now) code =
      some { status := some "finished", ended_at := some now,
             winner_id := some winner } ∧
    ((get_room (end_room_game s code (some winner) now) code).getD {}).players = none ∧
    kvGet (end_room_game s code (some winner) now).ttl ("room:" ++ code) = some 60 := by
  refine ⟨?_, ?_, ?_⟩ <;>
    simp [end_room_game, get_room, habs, hw, setTtl, withTtl, withRooms, kvGet_kvSet_self]

theorem end_room_game_absent_spec_witness :
    get_room (end_room_game emptyStore "ZZZZZZ" (some "p9") "t1") "ZZZZZZ" =
      some { status := some "finished", ended_at := some "t1",
             winner_id := some "p9" } ∧
    kvGet (end_room_game emptyStore "ZZZZZZ" (some "p9") "t1").ttl
        ("room:" ++ "ZZZZZZ") = some 60 := by
  refine ⟨(end_room_game_absent_spec emptyStore "ZZZZZZ" "p9" "t1" (by decide)
    (by decide)).1, (end_room_game_absent_spec emptyStore "ZZZZZZ" "p9" "t1"
    (by decide) (by decide)).2.2⟩

def c2Store : Store :=
  (join_room (create_room emptyStore "p1" "Alice" "versus" "MEDIUM" "AAAAAA" "t1").2
    "AAAAAA" "p2" "Bob").2

/-- Claim C2 counterexample: in a reachable waiting room whose roster holds
2 entries one of which is the caller, join_room answers RoomFull instead of
returning the current room, because the capacity check runs before the
already-seated check. -/
theorem join_room_full_seated_rejected :
    ((get_room c2Store "AAAAAA").getD {}).players =
      some [{ id := "p1", name := "Alice", ready := false, slot := 1 },
            { id := "p2", name := "Bob", ready := false, slot := 2 }] ∧
    ((get_room c2Store "AAAAAA").getD {}).status = some "waiting" ∧
    join_room c2Store "AAAAAA" "p1" "Alice" = (some JoinResult.roomFull, c2Store) := by
  refine ⟨by decide, by decide, by decide⟩

/-- Claim C2 (amended): join_room fails with RoomNotFound when the room is
absent, GameAlreadyStarted when its status is not waiting, and RoomFull when
the roster has 2 entries; the error checks run in that order and before the
already-seated check, so the idempotent return of the unchanged room applies
exactly when the room is waiting, the roster has fewer than 2 entries and
the caller is among them. -/
theorem join_room_spec (s : Store) (code player_id player_name : String) :
    (get_room s code = none →
      join_room s code player_id player_name = (some JoinResult.roomNotFound, s)) ∧
    (∀ rm st, get_room s code = some rm → rm.status = some st → st ≠ "waiting" →
      join_room s code player_id player_name = (some JoinResult.gameAlreadyStarted, s)) ∧
    (∀ rm ps, get_room s code = some rm → rm.status = some "waiting" →
      rm.players = some ps → 2 ≤ ps.length →
      join_room s code player_id player_name = (some JoinResult.roomFull, s)) ∧
    (∀ rm ps, get_room s code = some rm → rm.status = some "waiting" →
      rm.players = some ps → ps.length < 2 →
      ps.any (fun p => p.id == player_id) = true →
      join_room s code player_id player_name = (some (JoinResult.joined rm), s)) := by
  refine ⟨?_, ?_, ?_, ?_⟩
  · intro h
    simp [join_room, h]
  · intro rm st h1 h2 h3
    simp [join_room, h1, h2, h3]
  · intro rm ps h1 h2 h3 h4
    simp [join_room, h1, h2, h3, h4]
  · intro rm ps h1 h2 h3 h4 h5
    simp [join_room, h1, h2, h3, Nat.not_le.mpr h4, h5]

theorem join_room_spec_witness :
    join_room emptyStore "XXXXXX" "p1" "Alice" = (some JoinResult.roomNotFound, emptyStore) ∧
    (join_room (end_room_game emptyStore "BBBBBB" none "t0") "BBBBBB" "p1" "Alice").1 =
      some JoinResult.gameAlreadyStarted ∧
    (join_room c2Store "AAAAAA" "p3" "Carol").1 = some JoinResult.roomFull ∧
    (join_room (create_room emptyStore "p1" "Alice" "versus" "MEDIUM" "DDDDDD" "t1").2
      "DDDDDD" "p1" "Alice").1 = some (JoinResult.joined
        ((get_room (create_room emptyStore "p1" "Alice" "versus" "MEDIUM" "DDDDDD" "t1").2
          "DDDDDD").getD {})) := by
  refine ⟨?_, ?_, ?_, ?_⟩
  · exact (join_room_spec emptyStore "XXXXXX" "p1" "Alice").1 (by decide)
  · rw [(join_room_spec (end_room_game emptyStore "BBBBBB" none "t0") "BBBBBB" "p1"
      "Alice").2.1 ((get_room (end_room_game emptyStore "BBBBBB" none "t0")
      "BBBBBB").getD {}) "finished" (by decide) (by decide) (by decide)]
  · rw [(join_room_spec c2Store "AAAAAA" "p3" "Carol").2.2.1
      ((get_room c2Store "AAAAAA").getD {})
      [{ id := "p1", name := "Alice", ready := false, slot := 1 },
       { id := "p2", name := "Bob", ready := false, slot := 2 }]
      (by decide) (by decide) (by decide) (by decide)]
  · rw [(join_room_spec (create_room emptyStore "p1" "Alice" "versus" "MEDIUM" "DDDDDD"
      "t1").2 "DDDDDD" "p1" "Alice").2.2.2
      ((get_room (create_room emptyStore "p1" "Alice" "versus" "MEDIUM" "DDDDDD" "t1").2
        "DDDDDD").getD {})
      [{ id := "p1", name := "Alice", ready := false, slot := 1 }]
      (by decide) (by decide) (by decide) (by decide) (by decide)]

def c3Room : RoomHash :=
  { status := some "waiting", host_id := some "p1", host_name := some "A",
    players := some [{ id := "p1", name := "A", ready := true, slot := 1 },
                     { id := "p2", name := "B", ready := true, slot := 2 },
                     { id := "p3", name := "C", ready := true, slot := 2 }] }

def c3Store : Store := withRooms emptyStore [("CCCCCC", c3Room)]

/-- Claim C3 counterexample: on a room whose roster has 3 entries, all
ready, start_room_game succeeds, while the claim requires failure for any
roster size other than exactly 2 (the code only checks `len < 2`). -/
theorem start_room_game_three_players :
    (((get_room c3Store "CCCCCC").getD {}).players.getD []).length = 3 ∧
    (start_room_game c3Store "CCCCCC" "t9").1 = some true := by
  refine ⟨by decide, by decide⟩

/-- Claim C3 (amended): start_room_game succeeds iff the room is present,
has a roster, the roster has at least 2 entries and every entry is ready (so
exactly 2 on rooms reachable through the registry, whose rosters never
exceed 2); on success it sets status='playing', stamps started_at and
extends the TTL 4x; in any other present-or-absent configuration it returns
false and mutates nothing. -/
theorem start_room_game_spec (s : Store) (code now : String) :
    (get_room s code = none → start_room_game s code now = (some false, s)) ∧
    (∀ rm ps, get_room s code = some rm → rm.players = some ps →
      ps.length < 2 → start_room_game s code now = (some false, s)) ∧
    (∀ rm ps, get_room s code = some rm → rm.players = some ps →
      ps.all (fun p => p.ready) = false → start_room_game s code now = (some false, s)) ∧
    (∀ rm ps, get_room s code = some rm → rm.players = some ps →
      2 ≤ ps.length → ps.all (fun p => p.ready) = true →
      (start_room_game s code now).1 = some true ∧
      get_room (start_room_game s code now).2 code =
        some { rm with status := some "playing", started_at := some now } ∧
      kvGet (start_room_game s code now).2.ttl ("room:" ++ code) =
        some (ROOM_TTL * 4)) := by
  refine ⟨?_, ?_, ?_, ?_⟩
  · intro h
    simp [start_room_game, h]
  · intro rm ps h1 h2 h3
    simp [start_room_game, h1, h2, h3]
  · intro rm ps h1 h2 h3
    by_cases h4 : ps.length < 2
    · simp [start_room_game, h1, h2, h4]
    · simp [start_room_game, h1, h2, h4, h3]
  · intro rm ps h1 h2 h3 h4
    have h1' : kvGet s.rooms code = some rm := h1
    refine ⟨?_, ?_, ?_⟩ <;>
      simp [start_room_game, h1', h2, Nat.not_lt.mpr h3, h4, get_room, setTtl,
        withTtl, withRooms, kvGet_kvSet_self]

def c3bStore : Store :=
  withRooms emptyStore [("EEEEEE",
    { status := some "waiting", host_id := some "p1", host_name := some "A",
      players := some [{ id := "p1", name := "A", ready := true, slot := 1 },
                       { id := "p2", name := "B", ready := true, slot := 2 }] })]

theorem start_room_game_spec_witness :
    start_room_game emptyStore "XXXXXX" "t1" = (some false, emptyStore) ∧
    (start_room_game c3bStore "EEEEEE" "t7").1 = some true ∧
    kvGet (start_room_game c3bStore "EEEEEE" "t7").2.ttl ("room:" ++ "EEEEEE") =
      some (ROOM_TTL * 4) := by
  refine ⟨(start_room_game_spec emptyStore "XXXXXX" "t1").1 (by decide), ?_, ?_⟩
  · exact ((start_room_game_spec c3bStore "EEEEEE" "t7").2.2.2
      ((get_room c3bStore "EEEEEE").getD {})
      [{ id := "p1", name := "A", ready := true, slot := 1 },
       { id := "p2", name := "B", ready := true, slot := 2 }]
      (by decide) (by decide) (by decide) (by decide)).1
  · exact ((start_room_game_spec c3bStore "EEEEEE" "t7").2.2.2
      ((get_room c3bStore "EEEEEE").getD {})
      [{ id := "p1", name := "A", ready := true, slot := 1 },
       { id := "p2", name := "B", ready := true, slot := 2 }]
      (by decide) (by decide) (by decide) (by decide)).2.2

def c6Store : Store := end_room_game emptyStore "XYZXYZ" (some "p1") "t0"

/-- Claim C6 counterexample: a reachable room that lacks a roster field (it
was created by end_room_game on an absent code) is present, yet leave_room
neither returns false nor removes anyone — it raises a KeyError reading
`players` (modelled as the `none` result). -/
theorem leave_room_no_roster_raises :
    (get_room c6Store "XYZXYZ").isSome = true ∧
    ((get_room c6Store "XYZXYZ").getD {}).players = none ∧
    (leave_room c6Store "XYZXYZ" "p1").1 = none := by
  refine ⟨by decide, by decide, by decide⟩

/-- Claim C6 (amended): leave_room returns false when the room is absent;
when the room has a roster and a host field it removes every roster entry of
the player, clears the player's back-reference, deletes the room entirely
when the roster empties, and when the departing player was the host promotes
the earliest-seated remaining player to host; a present room without a
roster field raises instead. -/
theorem leave_room_spec (s : Store) (code player_id : String) :
    (get_room s code = none → leave_room s code player_id = (some false, s)) ∧
    (∀ rm ps h, get_room s code = some rm → rm.players = some ps →
      rm.host_id = some h →
      (leave_room s code player_id).1 = some true ∧
      kvGet (leave_room s code player_id).2.playerRoom player_id = none ∧
      (ps.filter (fun p => p.id != player_id) = [] →
        get_room (leave_room s code player_id).2 code = none) ∧
      (∀ p0 rest, ps.filter (fun p => p.id != player_id) = p0 :: rest →
        (h = player_id →
          get_room (leave_room s code player_id).2 code =
            some { rm with
              players := some (p0 :: rest), host_id := some p0.id,
              host_name := some p0.name }) ∧
        (h ≠ player_id →
          get_room (leave_room s code player_id).2 code =
            some { rm with players := some (p0 :: rest) }))) := by
  constructor
  · intro h
    simp [leave_room, h]
  · intro rm ps h hg hp hh
    have hg' : kvGet s.rooms code = some rm := hg
    cases hfil : ps.filter (fun p => p.id != player_id) with
    | nil =>
        refine ⟨?_, ?_, ?_, ?_⟩
        · simp [leave_room, get_room, hg', hp, hh, hfil, withRoomPlayers,
            withPlayerRoom, withRooms, withTtl, kvGet_kvDel_self]
        · simp [leave_room, get_room, hg', hp, hh, hfil, withRoomPlayers,
            withPlayerRoom, withRooms, withTtl, kvGet_kvDel_self]
        · intro _
          simp [leave_room, get_room, hg', hp, hh, hfil, withRoomPlayers,
            withPlayerRoom, withRooms, withTtl, kvGet_kvDel_self]
        · intro p0 rest hcontr
          exact absurd hcontr (by simp)
    | cons q0 qrest =>
        by_cases hhp : h = player_id
        · refine ⟨?_, ?_, ?_, ?_⟩
          · simp [leave_room, get_room, hg', hp, hh, hfil, hhp, withRoomPlayers,
              withPlayerRoom, withRooms, withTtl, kvGet_kvDel_self, kvGet_kvSet_self]
          · simp [leave_room, get_room, hg', hp, hh, hfil, hhp, withRoomPlayers,
              withPlayerRoom, withRooms, withTtl, kvGet_kvDel_self, kvGet_kvSet_self]
          · intro hcontr
            exact absurd hcontr (by simp)
          · intro p0 rest hfil2
            injection hfil2 with h1 h2
            constructor
            · intro _
              subst h1
              subst h2
              simp [leave_room, get_room, hg', hp, hh, hfil, hhp, withRoomPlayers,
                withPlayerRoom, withRooms, withTtl, kvGet_kvDel_self, kvGet_kvSet_self]
            · intro hcontr
              exact absurd hhp hcontr
        · refine ⟨?_, ?_, ?_, ?_⟩
          · simp [leave_room, get_room, hg', hp, hh, hfil, hhp, withRoomPlayers,
              withPlayerRoom, withRooms, withTtl, kvGet_kvDel_self, kvGet_kvSet_self]
          · simp [leave_room, get_room, hg', hp, hh, hfil, hhp, withRoomPlayers,
              withPlayerRoom, withRooms, withTtl, kvGet_kvDel_self, kvGet_kvSet_self]
          · intro hcontr
            exact absurd hcontr (by simp)
          · intro p0 rest hfil2
            injection hfil2 with h1 h2
            constructor
            · intro hcontr
              exact absurd hcontr hhp
            · intro _
              subst h1
              subst h2
              simp [leave_room, get_room, hg', hp, hh, hfil, hhp, withRoomPlayers,
                withPlayerRoom, withRooms, withTtl, kvGet_kvDel_self, kvGet_kvSet_self]

theorem leave_room_spec_witness :
    leave_room emptyStore "XXXXXX" "p1" = (some false, emptyStore) ∧
    get_room (leave_room (create_room emptyStore "p1" "A" "coop" "MEDIUM" "FFFFFF"
      "t1").2 "FFFFFF" "p1").2 "FFFFFF" = none ∧
    ((get_room (leave_room c2Store "AAAAAA" "p1").2 "AAAAAA").getD {}).host_id =
      some "p2" ∧
    ((get_room (leave_room c2Store "AAAAAA" "p1").2 "AAAAAA").getD {}).players =
      some [{ id := "p2", name := "Bob", ready := false, slot := 2 }] := by
  refine ⟨(leave_room_spec emptyStore "XXXXXX" "p1").1 (by decide), ?_, ?_, ?_⟩
  · exact ((leave_room_spec (create_room emptyStore "p1" "A" "coop" "MEDIUM" "FFFFFF"
      "t1").2 "FFFFFF" "p1").2
      ((get_room (create_room emptyStore "p1" "A" "coop" "MEDIUM" "FFFFFF" "t1").2
        "FFFFFF").getD {})
      [{ id := "p1", name := "A", ready := false, slot := 1 }] "p1"
      (by decide) (by decide) (by decide)).2.2.1 (by decide)
  · have hmain := (leave_room_spec c2Store "AAAAAA" "p1").2
      ((get_room c2Store "AAAAAA").getD {})
      [{ id := "p1", name := "Alice", ready := false, slot := 1 },
       { id := "p2", name := "Bob", ready := false, slot := 2 }] "p1"
      (by decide) (by decide) (by decide)
    have hres := (hmain.2.2.2 { id := "p2", name := "Bob", ready := false, slot := 2 }
      [] (by decide)).1 rfl
    rw [hres]
    decide
  · have hmain := (leave_room_spec c2Store "AAAAAA" "p1").2
      ((get_room c2Store "AAAAAA").getD {})
      [{ id := "p1", name := "Alice", ready := false, slot := 1 },
       { id := "p2", name := "Bob", ready := false, slot := 2 }] "p1"
      (by decide) (by decide) (by decide)
    have hres := (hmain.2.2.2 { id := "p2", name := "Bob", ready := false, slot := 2 }
      [] (by decide)).1 rfl
    rw [hres]
    decide

/-- The hash create_room writes at its code (merging over any colliding hash). -/
def createdRoom (s : Store) (host_id host_name mode difficulty code now : String) :
    RoomHash :=
  { (kvGet s.rooms code).getD {} with
    code := some code, mode := some mode, host_id := some host_id,
    host_name := some host_name, status := some "waiting",
    difficulty := some difficulty, created_at := some now,
    players := some [{ id := host_id, name := host_name, ready := false, slot := 1 }] }

theorem create_room_rooms_eq (s : Store) (host_id host_name mode difficulty code now : String) :
    (create_room s host_id host_name mode difficulty code now).2.rooms =
      kvSet s.rooms code (createdRoom s host_id host_name mode difficulty code now) := rfl

theorem join_room_rooms_cases (s : Store) (c pid pn : String) :
    (join_room s c pid pn).2.rooms = s.rooms ∨
    (∃ room ps, kvGet s.rooms c = some room ∧ room.players = some ps ∧
      ps.length < 2 ∧
      (join_room s c pid pn).2.rooms =
        kvSet s.rooms c { room with
          players := some (ps ++ [{ id := pid, name := pn, ready := false, slot := 2 }]) }) := by
  unfold join_room
  split
  · exact Or.inl rfl
  next room hsome =>
    split
    · exact Or.inl rfl
    next st hst =>
      split
      · exact Or.inl rfl
      · split
        · exact Or.inl rfl
        next players hpl =>
          split
          · exact Or.inl rfl
          next hnotfull =>
            split
            · exact Or.inl rfl
            · exact Or.inr ⟨room, players, hsome, hpl, by omega, rfl⟩

/-- Claim C4's sequence language: the registry operations the claim ranges
over (CreateRoom with the generated code and clock made explicit, JoinRoom). -/
inductive RoomOp where
  | create (host_id host_name mode difficulty code now : String)
  | join (code player_id player_name : String)

def roomStep (s : Store) : RoomOp → Store
  | .create hid hn m d c now => (create_room s hid hn m d c now).2
  | .join c pid pn => (join_room s c pid pn).2

def runRoomOps : Store → List RoomOp → Store
  | s, [] => s
  | s, op :: rest => runRoomOps (roomStep s op) rest

/-- Every room's roster (when the hash has one) holds at most 2 entries. -/
def RoomsBounded (s : Store) : Prop :=
  ∀ code rm ps, kvGet s.rooms code = some rm → rm.players = some ps → ps.length ≤ 2

theorem roomStep_bounded (s : Store) (op : RoomOp) (h : RoomsBounded s) :
    RoomsBounded (roomStep s op) := by
  cases op with
  | create hid hn m d c now =>
      intro code rm ps hget hps
      rw [show (roomStep s (RoomOp.create hid hn m d c now)).rooms =
        kvSet s.rooms c (createdRoom s hid hn m d c now) from rfl] at hget
      by_cases hc : code = c
      · subst hc
        rw [kvGet_kvSet_self] at hget
        cases hget
        simp [createdRoom] at hps
        simp [← hps]
      · rw [kvGet_kvSet_ne _ _ _ _ hc] at hget
        exact h code rm ps hget hps
  | join c pid pn =>
      intro code rm ps hget hps
      rcases join_room_rooms_cases s c pid pn with hsame | ⟨room, ps0, _, _, hlt, heq⟩
      · rw [show (roomStep s (RoomOp.join c pid pn)).rooms =
          (join_room s c pid pn).2.rooms from rfl, hsame] at hget
        exact h code rm ps hget hps
      · rw [show (roomStep s (RoomOp.join c pid pn)).rooms =
          (join_room s c pid pn).2.rooms from rfl, heq] at hget
        by_cases hc : code = c
        · subst hc
          rw [kvGet_kvSet_self] at hget
          cases hget
          simp at hps
          rw [← hps]
          simp
          omega
        · rw [kvGet_kvSet_ne _ _ _ _ hc] at hget
          exact h code rm ps hget hps

theorem runRoomOps_bounded (ops : List RoomOp) :
    ∀ s, RoomsBounded s → RoomsBounded (runRoomOps s ops) := by
  induction ops with
  | nil => intro s h; exact h
  | cons op rest ih =>
      intro s h
      exact ih (roomStep s op) (roomStep_bounded s op h)

/-- Claim C4: after any sequence of CreateRoom and JoinRoom operations from
the empty store, every room's players list has length at most 2. -/
theorem rooms_bounded_from_empty (ops : List RoomOp) (code : String) (rm : RoomHash)
    (ps : List Player)
    (h1 : kvGet (runRoomOps emptyStore ops).rooms code = some rm)
    (h2 : rm.players = some ps) : ps.length ≤ 2 := by
  refine runRoomOps_bounded ops emptyStore ?_ code rm ps h1 h2
  intro c r p hget _
  simp [emptyStore, kvGet] at hget

def c4Ops : List RoomOp :=
  [RoomOp.create "p1" "Alice" "versus" "MEDIUM" "AAAAAA" "t1",
   RoomOp.join "AAAAAA" "p2" "Bob",
   RoomOp.join "AAAAAA" "p3" "Carol"]

theorem rooms_bounded_from_empty_witness :
    (((kvGet (runRoomOps emptyStore c4Ops).rooms "AAAAAA").getD {}).players.getD []).length ≤ 2 := by
  exact rooms_bounded_from_empty c4Ops "AAAAAA"
    ((kvGet (runRoomOps emptyStore c4Ops).rooms "AAAAAA").getD {})
    (((kvGet (runRoomOps emptyStore c4Ops).rooms "AAAAAA").getD {}).players.getD [])
    (by decide) (by decide)

/-- Claim C9's sequence language: the roster-mutating registry operations
after room creation (JoinRoom, SetReady), all on one room code. -/
inductive RegOp where
  | join (player_id player_name : String)
  | ready (player_id : String) (ready : Bool)

/-- One registry call: the resulting store and the room value the call
returned, when it returned one. -/
def regStep (code : String) (s : Store) : RegOp → Store × Option RoomHash
  | .join pid pn =>
      let r := join_room s code pid pn
      (r.2, match r.1 with
            | some (JoinResult.joined rm) => some rm
            | _ => none)
  | .ready pid b =>
      let r := set_player_ready s code pid b
      (r.2, match r.1 with
            | some (some rm) => some rm
            | _ => none)

/-- Run the calls in order; the second component is the room value returned
by the last call that returned one. -/
def runRegOps (code : String) : Store → List RegOp → Store × Option RoomHash
  | s, [] => (s, none)
  | s, op :: rest =>
      let stepR := regStep code s op
      let restR := runRegOps code stepR.1 rest
      (restR.1,
       match restR.2 with
       | some rm => some rm
       | none => stepR.2)

theorem runRegOps_cons (code : String) (s : Store) (op : RegOp) (rest : List RegOp) :
    runRegOps code s (op :: rest) =
      ((runRegOps code (regStep code s op).1 rest).1,
       match (runRegOps code (regStep code s op).1 rest).2 with
       | some rm => some rm
       | none => (regStep code s op).2) := rfl

set_option maxRecDepth 4000 in
theorem regStep_spec (code : String) (s : Store) (op : RegOp) (rm0 : RoomHash)
    (ps0 : List Player) (h1 : kvGet s.rooms code = some rm0)
    (h2 : rm0.players = some ps0) :
    ∃ rm' ps', kvGet (regStep code s op).1.rooms code = some rm' ∧
      rm'.players = some ps' ∧
      ((regStep code s op).2 = none → ps' = ps0) ∧
      (∀ rm, (regStep code s op).2 = some rm → rm.players = some ps') := by
  cases op with
  | join pid pn =>
      cases hst : rm0.status with
      | none =>
          have hj : join_room s code pid pn = (none, s) := by
            simp [join_room, get_room, h1, hst]
          exact ⟨rm0, ps0, by simp [regStep, hj, h1], h2,
            fun _ => rfl, by simp [regStep, hj]⟩
      | some st =>
          by_cases hw : st = "waiting"
          · subst hw
            by_cases hfull : ps0.length ≥ 2
            · have hj : join_room s code pid pn = (some JoinResult.roomFull, s) := by
                simp [join_room, get_room, h1, hst, h2, hfull]
              exact ⟨rm0, ps0, by simp [regStep, hj, h1], h2,
                fun _ => rfl, by simp [regStep, hj]⟩
            · by_cases hseat : ps0.any (fun p => p.id == pid) = true
              · have hj : join_room s code pid pn = (some (JoinResult.joined rm0), s) := by
                  simp [join_room, get_room, h1, hst, h2, hfull, hseat]
                refine ⟨rm0, ps0, by simp [regStep, hj, h1], h2, fun _ => rfl, ?_⟩
                intro rm hrm
                simp [regStep, hj] at hrm
                rw [← hrm]
                exact h2
              · have hj : (join_room s code pid pn).1 =
                    some (JoinResult.joined { rm0 with
                      players := some (ps0 ++ [{ id := pid, name := pn, ready := false, slot := 2 }]) }) := by
                  simp [join_room, get_room, h1, hst, h2, hfull, hseat]
                have hrooms : (join_room s code pid pn).2.rooms =
                    kvSet s.rooms code { rm0 with
                      players := some (ps0 ++ [{ id := pid, name := pn, ready := false, slot := 2 }]) } := by
                  simp [join_room, get_room, h1, hst, h2, hfull, hseat, withRooms,
                    withRoomPlayers, withPlayerRoom, setTtl, withTtl]
                refine ⟨{ rm0 with
                    players := some (ps0 ++ [{ id := pid, name := pn, ready := false, slot := 2 }]) },
                  ps0 ++ [{ id := pid, name := pn, ready := false, slot := 2 }],
                  ?_, rfl, ?_, ?_⟩
                · show kvGet (join_room s code pid pn).2.rooms code = _
                  rw [hrooms, kvGet_kvSet_self]
                · intro hnone
                  simp [regStep, hj] at hnone
                · intro rm hrm
                  simp [regStep, hj] at hrm
                  rw [← hrm]
          · have hj : join_room s code pid pn = (some JoinResult.gameAlreadyStarted, s) := by
              simp [join_room, get_room, h1, hst, hw]
            exact ⟨rm0, ps0, by simp [regStep, hj, h1], h2,
              fun _ => rfl, by simp [regStep, hj]⟩
  | ready pid b =>
      have hj : (set_player_ready s code pid b).1 =
          some (some { rm0 with players := some (setReadyList ps0 pid b) }) := by
        simp [set_player_ready, get_room, h1, h2]
      have hrooms : (set_player_ready s code pid b).2.rooms =
          kvSet s.rooms code { rm0 with players := some (setReadyList ps0 pid b) } := by
        simp [set_player_ready, get_room, h1, h2, withRooms, setTtl, withTtl]
      refine ⟨{ rm0 with players := some (setReadyList ps0 pid b) },
        setReadyList ps0 pid b, ?_, rfl, ?_, ?_⟩
      · show kvGet (set_player_ready s code pid b).2.rooms code = _
        rw [hrooms, kvGet_kvSet_self]
      · intro hnone
        simp [regStep, hj] at hnone
      · intro rm hrm
        simp [regStep, hj] at hrm
        rw [← hrm]

theorem runRegOps_roundtrip (code : String) :
    ∀ (ops : List RegOp) (s : Store) (rm0 : RoomHash) (ps0 : List Player),
      kvGet s.rooms code = some rm0 → rm0.players = some ps0 →
      ∃ rm1 ps1, kvGet (runRegOps code s ops).1.rooms code = some rm1 ∧
        rm1.players = some ps1 ∧
        ((runRegOps code s ops).2 = none → ps1 = ps0) ∧
        (∀ rm, (runRegOps code s ops).2 = some rm → rm.players = some ps1) := by
  intro ops
  induction ops with
  | nil =>
      intro s rm0 ps0 h1 h2
      exact ⟨rm0, ps0, h1, h2, fun _ => rfl, by simp [runRegOps]⟩
  | cons op rest ih =>
      intro s rm0 ps0 h1 h2
      obtain ⟨rmS, psS, hS1, hS2, hSnone, hSsome⟩ := regStep_spec code s op rm0 ps0 h1 h2
      obtain ⟨rm1, ps1, hR1, hR2, hRnone, hRsome⟩ :=
        ih (regStep code s op).1 rmS psS hS1 hS2
      refine ⟨rm1, ps1, hR1, hR2, ?_, ?_⟩
      · intro hnone
        rw [runRegOps_cons] at hnone
        cases hrest : (runRegOps code (regStep code s op).1 rest).2 with
        | some rm => rw [hrest] at hnone; simp at hnone
        | none =>
            rw [hrest] at hnone
            simp at hnone
            exact (hRnone hrest).trans (hSnone hnone)
      · intro rm hsome
        rw [runRegOps_cons] at hsome
        cases hrest : (runRegOps code (regStep code s op).1 rest).2 with
        | some rm2 =>
            rw [hrest] at hsome
            simp at hsome
            rw [← hsome]
            exact hRsome rm2 hrest
        | none =>
            rw [hrest] at hsome
            simp at hsome
            rw [hRnone hrest]
            exact hSsome rm hsome

/-- Claim C9: after CreateRoom and any sequence of JoinRoom / SetReady
calls on that code, GetRoom re-reads a room whose roster (order and ready
flags included) equals the roster of the room value returned by the last
mutating call that returned one. -/
theorem registry_roundtrip (host_id host_name mode difficulty code now : String)
    (ops : List RegOp) (rm : RoomHash)
    (hlast : (runRegOps code
      (create_room emptyStore host_id host_name mode difficulty code now).2 ops).2 =
      some rm) :
    (get_room (runRegOps code
      (create_room emptyStore host_id host_name mode difficulty code now).2 ops).1
      code).isSome = true ∧
    ((get_room (runRegOps code
      (create_room emptyStore host_id host_name mode difficulty code now).2 ops).1
      code).getD {}).players = rm.players := by
  have hinit : kvGet (create_room emptyStore host_id host_name mode difficulty
      code now).2.rooms code =
      some (createdRoom emptyStore host_id host_name mode difficulty code now) := by
    rw [create_room_rooms_eq, kvGet_kvSet_self]
  obtain ⟨rm1, ps1, hR1, hR2, _, hRsome⟩ :=
    runRegOps_roundtrip code ops _ _
      [{ id := host_id, name := host_name, ready := false, slot := 1 }] hinit rfl
  have hrmps := hRsome rm hlast
  constructor
  · simp [get_room, hR1]
  · simp only [get_room, hR1, Option.getD_some]
    rw [hR2, hrmps]

def c9Base : Store := (create_room emptyStore "p1" "Alice" "versus" "MEDIUM" "GGGGGG" "t1").2

def c9Ops : List RegOp := [RegOp.join "p2" "Bob", RegOp.ready "p1" true]

theorem registry_roundtrip_witness :
    ((get_room (runRegOps "GGGGGG" c9Base c9Ops).1 "GGGGGG").getD {}).players =
      ((runRegOps "GGGGGG" c9Base c9Ops).2.getD {}).players := by
  exact (registry_roundtrip "p1" "Alice" "versus" "MEDIUM" "GGGGGG" "t1" c9Ops
    ((runRegOps "GGGGGG" c9Base c9Ops).2.getD {}) (by decide)).2

/-- Number of entries with the given player id in a queue. -/
def countById (q : List QEntry) (player_id : String) : Nat :=
  (q.filter (fun e => e.id == player_id)).length

/-- Claim C5's sequence language: Enqueue (join_matchmaking, with the clock
explicit) and Dequeue (leave_matchmaking). -/
inductive QOp where
  | joinQ (player_id player_name mode difficulty now : String)
  | leaveQ (player_id : String)

def qStep (s : Store) : QOp → Store
  | .joinQ pid pn m d t => (join_matchmaking s pid pn m d t).2
  | .leaveQ pid => (leave_matchmaking s pid).2

def runQOps : Store → List QOp → Store
  | s, [] => s
  | s, op :: rest => runQOps (qStep s op) rest

/-- A sequence is guarded for a player when each of that player's enqueues
happens while the player's queue back-reference is clear (the explicit-leave
discipline of the spec's test scenario). -/
def guardedFor (pid : String) : Store → List QOp → Bool
  | _, [] => true
  | s, op :: rest =>
      (match op with
       | QOp.joinQ p _ _ _ _ => (p != pid) || (kvGet s.inQueue pid).isNone
       | QOp.leaveQ _ => true) && guardedFor pid (qStep s op) rest

def c5Store : Store :=
  runQOps emptyStore [QOp.joinQ "p1" "Alice" "coop" "MEDIUM" "t1",
                      QOp.joinQ "p1" "Alice" "versus" "MEDIUM" "t2"]

/-- Claim C5 counterexample: enqueuing into coop and then into versus with
no leave in between leaves the player's entry in BOTH mode queues (the
back-reference names only the second), refuting the claimed at-most-one
outstanding queue membership. -/
theorem double_enqueue_two_queues :
    countById (queueOf c5Store "coop") "p1" = 1 ∧
    countById (queueOf c5Store "versus") "p1" = 1 ∧
    kvGet c5Store.inQueue "p1" = some "versus" := by
  refine ⟨by decide, by decide, by decide⟩

/-- The at-most-one-membership invariant, phrased over the keyspace: the
player's entries live only in the queue the back-reference names (at most
once there), and nowhere when the back-reference is clear. -/
def MMOk (s : Store) (pid : String) : Prop :=
  match kvGet s.inQueue pid with
  | none => ∀ m, countById (queueOf s m) pid = 0
  | some m0 => countById (queueOf s m0) pid ≤ 1 ∧
      ∀ m, m ≠ m0 → countById (queueOf s m) pid = 0

/-- Decidable check equivalent to MMOk (queues outside the stored key list
are empty). -/
def mmInvG (s : Store) (pid : String) : Bool :=
  match kvGet s.inQueue pid with
  | none => (s.queues.map Prod.fst).all (fun m => countById (queueOf s m) pid == 0)
  | some m0 => Nat.ble (countById (queueOf s m0) pid) 1 &&
      (s.queues.map Prod.fst).all
        (fun m => (m == m0) || countById (queueOf s m) pid == 0)

theorem kvGet_eq_none_of_not_mem {α : Type} (l : List (String × α)) (k : String)
    (h : ¬ k ∈ l.map Prod.fst) : kvGet l k = none := by
  induction l with
  | nil => rfl
  | cons hd tl ih =>
      obtain ⟨k0, v0⟩ := hd
      simp only [List.map_cons, List.mem_cons] at h
      push_neg at h
      simp [kvGet, Ne.symm h.1, ih h.2]

theorem mmInvG_iff_MMOk (s : Store) (pid : String) :
    mmInvG s pid = true ↔ MMOk s pid := by
  unfold mmInvG MMOk
  cases hq : kvGet s.inQueue pid with
  | none =>
      simp only [List.all_eq_true, beq_iff_eq]
      constructor
      · intro h m
        by_cases hm : m ∈ s.queues.map Prod.fst
        · exact h m hm
        · simp [queueOf, kvGet_eq_none_of_not_mem _ _ hm, countById]
      · intro h m _
        exact h m
  | some m0 =>
      simp only [Bool.and_eq_true, List.all_eq_true, Bool.or_eq_true, beq_iff_eq,
        Nat.ble_eq]
      constructor
      · intro h
        refine ⟨h.1, ?_⟩
        intro m hm
        by_cases hmem : m ∈ s.queues.map Prod.fst
        · rcases h.2 m hmem with h1 | h2
          · exact absurd h1 hm
          · exact h2
        · simp [queueOf, kvGet_eq_none_of_not_mem _ _ hmem, countById]
      · intro h
        refine ⟨h.1, ?_⟩
        intro m _
        by_cases hm : m = m0
        · exact Or.inl hm
        · exact Or.inr (h.2 m hm)

theorem countById_nil (pid : String) : countById [] pid = 0 := rfl

theorem countById_append (a b : List QEntry) (pid : String) :
    countById (a ++ b) pid = countById a pid + countById b pid := by
  simp [countById, List.filter_append]

theorem countById_filter_le (q : List QEntry) (f : QEntry → Bool) (pid : String) :
    countById (q.filter f) pid ≤ countById q pid := by
  simp only [countById]
  exact List.Sublist.length_le (List.Sublist.filter _ (List.filter_sublist q))

theorem countById_cons (a : QEntry) (q : List QEntry) (pid : String) :
    countById (a :: q) pid =
      if a.id == pid then countById q pid + 1 else countById q pid := by
  simp only [countById, List.filter_cons]
  split
  · simp [List.length_cons]
  · rfl

theorem countById_pos (q : List QEntry) (pid : String) (e : QEntry)
    (he : e ∈ q) (hid : (e.id == pid) = true) : 1 ≤ countById q pid := by
  have hmem : e ∈ q.filter (fun x => x.id == pid) := List.mem_filter.mpr ⟨he, hid⟩
  simpa [countById, Nat.succ_le, List.length_pos] using List.ne_nil_of_mem hmem

theorem countById_eq_zero (q : List QEntry) (pid : String)
    (h : ∀ e ∈ q, ¬ (e.id == pid) = true) : countById q pid = 0 := by
  simp only [countById, List.length_eq_zero]
  exact List.filter_eq_nil_iff.mpr h

theorem countById_remove_found (q : List QEntry) (pid : String) (e : QEntry)
    (he : e ∈ q) (hid : (e.id == pid) = true) (hle : countById q pid ≤ 1) :
    countById (q.filter (fun x => x != e)) pid = 0 := by
  induction q with
  | nil => cases he
  | cons a rest ih =>
      rw [List.filter_cons]
      by_cases hae : a = e
      · subst hae
        rw [if_neg (by simp)]
        have hz : countById rest pid = 0 := by
          rw [countById_cons] at hle
          simp [hid] at hle
          omega
        have hle2 := countById_filter_le rest (fun x => x != a) pid
        omega
      · rw [if_pos (by simpa using hae)]
        rw [countById_cons]
        have he' : e ∈ rest := by
          cases he with
          | head => exact absurd rfl hae
          | tail _ h => exact h
        by_cases hap : (a.id == pid) = true
        · exfalso
          have h1 := countById_pos rest pid e he' hid
          rw [countById_cons] at hle
          simp [hap] at hle
          omega
        · rw [if_neg hap]
          have hle2 : countById rest pid ≤ 1 := by
            rw [countById_cons] at hle
            split at hle
            · omega
            · exact hle
          exact ih he' hle2

theorem join_matchmaking_queues_eq (s : Store) (p pn m d t : String) :
    (join_matchmaking s p pn m d t).2.queues =
      kvSet s.queues m ((queueOf s m).filter
        (fun e => e != { id := p, name := pn, difficulty := d, joined_at := t }) ++
        [{ id := p, name := pn, difficulty := d, joined_at := t }]) := rfl

theorem join_matchmaking_inQueue_eq (s : Store) (p pn m d t : String) :
    (join_matchmaking s p pn m d t).2.inQueue = kvSet s.inQueue p m := rfl

theorem leave_matchmaking_absent (s : Store) (p : String)
    (h : kvGet s.inQueue p = none) : (leave_matchmaking s p).2 = s := by
  simp [leave_matchmaking, h]

theorem leave_matchmaking_queues_noentry (s : Store) (p m1 : String)
    (h : kvGet s.inQueue p = some m1)
    (hf : (queueOf s m1).find? (fun e => e.id == p) = none) :
    (leave_matchmaking s p).2.queues = s.queues := by
  simp [leave_matchmaking, h, hf, withInQueue, withTtl]

theorem leave_matchmaking_queues_entry (s : Store) (p m1 : String) (e : QEntry)
    (h : kvGet s.inQueue p = some m1)
    (hf : (queueOf s m1).find? (fun x => x.id == p) = some e) :
    (leave_matchmaking s p).2.queues =
      kvSet s.queues m1 ((queueOf s m1).filter (fun x => x != e)) := by
  simp [leave_matchmaking, h, hf, withQueues, withInQueue, withTtl]

theorem leave_matchmaking_inQueue_eq (s : Store) (p m1 : String)
    (h : kvGet s.inQueue p = some m1) :
    (leave_matchmaking s p).2.inQueue = kvDel s.inQueue p := by
  cases hf : (queueOf s m1).find? (fun x => x.id == p) with
  | none => simp [leave_matchmaking, h, hf, withInQueue, withTtl]
  | some e => simp [leave_matchmaking, h, hf, withQueues, withInQueue, withTtl]

theorem queueOf_kvSet_self (s : Store) (qs : List (String × List QEntry))
    (m : String) (q : List QEntry) (h : s.queues = kvSet qs m q) :
    queueOf s m = q := by
  simp [queueOf, h, kvGet_kvSet_self]

theorem queueOf_kvSet_ne (s : Store) (qs : List (String × List QEntry))
    (m m' : String) (q : List QEntry) (h : s.queues = kvSet qs m q)
    (hne : m' ≠ m) : queueOf s m' = (kvGet qs m').getD [] := by
  simp [queueOf, h, kvGet_kvSet_ne _ _ _ _ hne]

theorem qStep_MMOk (s : Store) (pid : String) (op : QOp)
    (hInv : MMOk s pid)
    (hguard : (match op with
               | QOp.joinQ p _ _ _ _ => (p != pid) || (kvGet s.inQueue pid).isNone
               | QOp.leaveQ _ => true) = true) :
    MMOk (qStep s op) pid := by
  cases op with
  | joinQ p pn m d t =>
      have hqE := join_matchmaking_queues_eq s p pn m d t
      have hiE := join_matchmaking_inQueue_eq s p pn m d t
      show MMOk (join_matchmaking s p pn m d t).2 pid
      by_cases hp : p = pid
      · subst hp
        have hnone : kvGet s.inQueue p = none := by
          simp [Option.isNone_iff_eq_none] at hguard
          exact hguard
        have hall : ∀ m', countById (queueOf s m') p = 0 := by
          simp only [MMOk, hnone] at hInv
          exact hInv
        have hiq : kvGet (join_matchmaking s p pn m d t).2.inQueue p = some m := by
          rw [hiE, kvGet_kvSet_self]
        unfold MMOk
        rw [hiq]
        constructor
        · rw [queueOf_kvSet_self _ _ _ _ hqE, countById_append]
          have h1 := countById_filter_le (queueOf s m)
            (fun e => e != { id := p, name := pn, difficulty := d, joined_at := t }) p
          have h2 : countById
              [{ id := p, name := pn, difficulty := d, joined_at := t }] p = 1 := by
            simp [countById]
          rw [hall m] at h1
          omega
        · intro m' hm'
          rw [queueOf_kvSet_ne _ _ _ _ _ hqE hm']
          exact hall m'
      · have hiq : kvGet (join_matchmaking s p pn m d t).2.inQueue pid =
            kvGet s.inQueue pid := by
          rw [hiE, kvGet_kvSet_ne _ _ _ _ (fun hh => hp hh.symm)]
        have hcount : ∀ m', countById (queueOf (join_matchmaking s p pn m d t).2 m') pid ≤
            countById (queueOf s m') pid := by
          intro m'
          by_cases hm : m' = m
          · subst hm
            rw [queueOf_kvSet_self _ _ _ _ hqE, countById_append]
            have h1 := countById_filter_le (queueOf s m')
              (fun e => e != { id := p, name := pn, difficulty := d, joined_at := t }) pid
            have h2 : countById
                [{ id := p, name := pn, difficulty := d, joined_at := t }] pid = 0 := by
              simp [countById, hp]
            omega
          · rw [queueOf_kvSet_ne _ _ _ _ _ hqE hm]
            exact Nat.le_refl _
        unfold MMOk
        rw [hiq]
        cases hq : kvGet s.inQueue pid with
        | none =>
            simp only [MMOk, hq] at hInv
            intro m'
            exact Nat.le_zero.mp (le_trans (hcount m') (Nat.le_of_eq (hInv m')))
        | some m0 =>
            simp only [MMOk, hq] at hInv
            exact ⟨le_trans (hcount m0) hInv.1,
              fun m' hm' => Nat.le_zero.mp (le_trans (hcount m')
                (Nat.le_of_eq (hInv.2 m' hm')))⟩
  | leaveQ p =>
      show MMOk (leave_matchmaking s p).2 pid
      cases hpq : kvGet s.inQueue p with
      | none =>
          rw [leave_matchmaking_absent s p hpq]
          exact hInv
      | some m1 =>
          have hiE := leave_matchmaking_inQueue_eq s p m1 hpq
          by_cases hp : p = pid
          · subst hp
            have hiq : kvGet (leave_matchmaking s p).2.inQueue p = none := by
              rw [hiE, kvGet_kvDel_self]
            simp only [MMOk, hpq] at hInv
            unfold MMOk
            rw [hiq]
            intro m'
            cases hf : (queueOf s m1).find? (fun x => x.id == p) with
            | none =>
                have hqe := leave_matchmaking_queues_noentry s p m1 hpq hf
                have hq' : queueOf (leave_matchmaking s p).2 m' = queueOf s m' := by
                  simp [queueOf, hqe]
                rw [hq']
                by_cases hm : m' = m1
                · subst hm
                  apply countById_eq_zero
                  intro e he
                  exact List.find?_eq_none.mp hf e he
                · exact hInv.2 m' hm
            | some e =>
                have hqe := leave_matchmaking_queues_entry s p m1 e hpq hf
                by_cases hm : m' = m1
                · subst hm
                  rw [queueOf_kvSet_self _ _ _ _ hqe]
                  have hpe := List.find?_some hf
                  exact countById_remove_found (queueOf s m') p e
                    (List.mem_of_find?_eq_some hf) hpe hInv.1
                · rw [queueOf_kvSet_ne _ _ _ _ _ hqe hm]
                  exact hInv.2 m' hm
          · have hiq : kvGet (leave_matchmaking s p).2.inQueue pid =
                kvGet s.inQueue pid := by
              rw [hiE, kvGet_kvDel_ne _ _ _ (fun hh => hp hh.symm)]
            have hcount : ∀ m', countById (queueOf (leave_matchmaking s p).2 m') pid ≤
                countById (queueOf s m') pid := by
              intro m'
              cases hf : (queueOf s m1).find? (fun x => x.id == p) with
              | none =>
                  have hqe := leave_matchmaking_queues_noentry s p m1 hpq hf
                  have hq' : queueOf (leave_matchmaking s p).2 m' = queueOf s m' := by
                    simp [queueOf, hqe]
                  rw [hq']
              | some e =>
                  have hqe := leave_matchmaking_queues_entry s p m1 e hpq hf
                  by_cases hm : m' = m1
                  · subst hm
                    rw [queueOf_kvSet_self _ _ _ _ hqe]
                    exact countById_filter_le _ _ _
                  · rw [queueOf_kvSet_ne _ _ _ _ _ hqe hm]
                    exact Nat.le_refl _
            unfold MMOk
            rw [hiq]
            cases hq : kvGet s.inQueue pid with
            | none =>
                simp only [MMOk, hq] at hInv
                intro m'
                exact Nat.le_zero.mp (le_trans (hcount m') (Nat.le_of_eq (hInv m')))
            | some m0 =>
                simp only [MMOk, hq] at hInv
                exact ⟨le_trans (hcount m0) hInv.1,
                  fun m' hm' => Nat.le_zero.mp (le_trans (hcount m')
                    (Nat.le_of_eq (hInv.2 m' hm')))⟩

/-- Claim C5 (amended): enqueuing never cleans a stale entry in another mode
queue (a double enqueue leaves the entry in both queues); the at-most-one
outstanding membership invariant — the player's entries live only in the
queue named by the player→mode back-reference, at most once — holds for
every sequence in which the player's enqueues happen only while the player's
back-reference is clear, i.e. after an explicit leave, as in the spec's
join-A / leave / join-B test scenario. -/
theorem matchmaking_single_membership (pid : String) (ops : List QOp) (s : Store)
    (h : mmInvG s pid = true) (hg : guardedFor pid s ops = true) :
    mmInvG (runQOps s ops) pid = true := by
  induction ops generalizing s with
  | nil => exact h
  | cons op rest ih =>
      simp only [guardedFor, Bool.and_eq_true] at hg
      exact ih (qStep s op)
        ((mmInvG_iff_MMOk _ _).mpr (qStep_MMOk s pid op
          ((mmInvG_iff_MMOk _ _).mp h) hg.1)) hg.2

def c5wOps : List QOp :=
  [QOp.joinQ "p1" "Alice" "coop" "MEDIUM" "t1",
   QOp.leaveQ "p1",
   QOp.joinQ "p1" "Alice" "versus" "MEDIUM" "t2"]

theorem matchmaking_single_membership_witness :
    mmInvG (runQOps emptyStore c5wOps) "p1" = true :=
  matchmaking_single_membership "p1" c5wOps emptyStore (by decide) (by decide)

/-- Claim C7: when the mode queue holds no entry whose id differs from the
caller (empty queue, only the caller, or other players only in other modes),
find_match returns matched:false with the caller's 1-based position in that
queue (0 when absent) and mutates nothing — so a player never matches
themselves and cross-mode players never match. -/
theorem find_match_no_opponent (s : Store)
    (player_id mode difficulty freshCode now : String)
    (h : ∀ e ∈ queueOf s mode, e.id = player_id) :
    find_match s player_id mode difficulty freshCode now =
      (MatchResult.notFound (get_queue_position s player_id mode), s) ∧
    (queueOf s mode = [] → get_queue_position s player_id mode = 0) ∧
    (queueOf s mode ≠ [] → get_queue_position s player_id mode = 1) := by
  have hfind : (queueOf s mode).find? (fun e => e.id != player_id) = none := by
    apply List.find?_eq_none.mpr
    intro e he
    simp [h e he]
  refine ⟨?_, ?_, ?_⟩
  · simp [find_match, hfind]
  · intro hq
    simp [get_queue_position, hq, queuePosAux]
  · intro hq
    cases hqof : queueOf s mode with
    | nil => exact absurd hqof hq
    | cons e rest =>
        have he : e.id = player_id := h e (by rw [hqof]; exact List.mem_cons_self e rest)
        simp [get_queue_position, hqof, queuePosAux, he]

def c7Store : Store := (join_matchmaking emptyStore "p1" "Alice" "coop" "MEDIUM" "t1").2

theorem find_match_no_opponent_witness :
    find_match c7Store "p1" "coop" "MEDIUM" "AAAAAA" "t2" =
      (MatchResult.notFound (get_queue_position c7Store "p1" "coop"), c7Store) ∧
    get_queue_position c7Store "p1" "coop" = 1 := by
  refine ⟨(find_match_no_opponent c7Store "p1" "coop" "MEDIUM" "AAAAAA" "t2"
    (by decide)).1,
    (find_match_no_opponent c7Store "p1" "coop" "MEDIUM" "AAAAAA" "t2"
    (by decide)).2.2 (by decide)⟩

def c1Store : Store :=
  runQOps emptyStore [QOp.joinQ "p2" "Bob" "coop" "MEDIUM" "t1",
                      QOp.joinQ "p1" "Alice" "coop" "MEDIUM" "t2",
                      QOp.joinQ "p1" "Alice" "versus" "MEDIUM" "t3"]

/-- Claim C1 counterexample: in a reachable state where p1's back-reference
names versus while a stale p1 entry sits in the coop queue, find_match for
p1 on coop matches p2 but does NOT remove p1's own entry from the coop
queue (leave_matchmaking removes from the queue the back-reference names),
refuting the claimed removal of the caller's entry. -/
theorem find_match_leaves_stale_caller_entry :
    (find_match c1Store "p1" "coop" "MEDIUM" "HHHHHH" "t4").1 =
      MatchResult.found "HHHHHH"
        { id := "p2", name := "Bob", difficulty := "MEDIUM", joined_at := "t1" } false ∧
    countById (queueOf (find_match c1Store "p1" "coop" "MEDIUM" "HHHHHH" "t4").2 "coop")
      "p1" = 1 := by
  refine ⟨by decide, by decide⟩

/-- The store after find_match's own two deletions (opponent queue entry,
opponent back-reference), before it calls leave_matchmaking. -/
def matchPrunedStore (s : Store) (mode : String) (opp : QEntry) : Store :=
  { s with
    queues := kvSet s.queues mode ((queueOf s mode).filter (fun x => x != opp)),
    inQueue := kvDel s.inQueue opp.id,
    ttl := kvDel s.ttl ("in_queue:" ++ opp.id) }

theorem find_match_found_unfold (s : Store)
    (player_id mode difficulty freshCode now : String) (opp : QEntry)
    (hfind : (queueOf s mode).find? (fun e => e.id != player_id) = some opp) :
    find_match s player_id mode difficulty freshCode now =
      (MatchResult.found freshCode opp false,
       (join_room
          (create_room (leave_matchmaking (matchPrunedStore s mode opp) player_id).2
            opp.id opp.name mode difficulty freshCode now).2
          freshCode player_id
          (mmPlayerName
            (create_room (leave_matchmaking (matchPrunedStore s mode opp) player_id).2
              opp.id opp.name mode difficulty freshCode now).2
            player_id)).2) := by
  simp only [find_match, hfind]
  rfl

theorem join_room_queues_eq (s : Store) (c pid pn : String) :
    (join_room s c pid pn).2.queues = s.queues := by
  unfold join_room
  split
  · rfl
  · split
    · rfl
    · split
      · rfl
      · split
        · rfl
        · split
          · rfl
          · split
            · rfl
            · rfl

theorem join_room_inQueue_eq (s : Store) (c pid pn : String) :
    (join_room s c pid pn).2.inQueue = s.inQueue := by
  unfold join_room
  split
  · rfl
  · split
    · rfl
    · split
      · rfl
      · split
        · rfl
        · split
          · rfl
          · split
            · rfl
            · rfl

theorem leave_matchmaking_playerHash_eq (s : Store) (p : String) :
    (leave_matchmaking s p).2.playerHash = s.playerHash := by
  cases hpq : kvGet s.inQueue p with
  | none => rw [leave_matchmaking_absent s p hpq]
  | some m1 =>
      cases hf : (queueOf s m1).find? (fun x => x.id == p) with
      | none => simp [leave_matchmaking, hpq, hf, withInQueue, withTtl]
      | some e => simp [leave_matchmaking, hpq, hf, withQueues, withInQueue, withTtl]

theorem countById_zremById (q : List QEntry) (pid : String)
    (h : countById q pid ≤ 1) : countById (zremById q pid) pid = 0 := by
  unfold zremById
  cases hf : q.find? (fun e => e.id == pid) with
  | none =>
      apply countById_eq_zero
      intro e he
      exact List.find?_eq_none.mp hf e he
  | some e =>
      have hpe := List.find?_some hf
      exact countById_remove_found q pid e (List.mem_of_find?_eq_some hf) hpe h

theorem create_join_room_spec (s : Store)
    (hid hname mode difficulty code now pid pn : String) (hne : hid ≠ pid) :
    kvGet (join_room (create_room s hid hname mode difficulty code now).2
        code pid pn).2.rooms code =
      some { (kvGet s.rooms code).getD {} with
        code := some code, mode := some mode, host_id := some hid,
        host_name := some hname, status := some "waiting",
        difficulty := some difficulty, created_at := some now,
        players := some [{ id := hid, name := hname, ready := false, slot := 1 },
                         { id := pid, name := pn, ready := false, slot := 2 }] } := by
  have h5 : kvGet (create_room s hid hname mode difficulty code now).2.rooms code =
      some (createdRoom s hid hname mode difficulty code now) := by
    rw [create_room_rooms_eq, kvGet_kvSet_self]
  simp [join_room, get_room, h5, createdRoom, hne, withRooms, withRoomPlayers,
    withPlayerRoom, setTtl, withTtl, kvGet_kvSet_self]

/-- Claim C1 (amended): when the mode queue holds an entry of another player
and the caller's back-reference names that mode, find_match returns
matched:true with the room code, the oldest differing entry as opponent and
isHost:false; it removes that opponent entry from the queue and also the
caller's oldest entry there (so the caller's entry is gone whenever it
occurred at most once), clears both players' back-references, creates a
room hosted by the opponent and seats the caller second.  (When the
caller's back-reference names a different mode — reachable by a double
enqueue — leave_matchmaking prunes that other queue instead and the
caller's stale entry stays in the mode queue.) -/
theorem find_match_success_spec (s : Store)
    (player_id mode difficulty freshCode now : String) (opp : QEntry)
    (hfind : (queueOf s mode).find? (fun e => e.id != player_id) = some opp)
    (hiq : kvGet s.inQueue player_id = some mode) :
    (find_match s player_id mode difficulty freshCode now).1 =
      MatchResult.found freshCode opp false ∧
    queueOf (find_match s player_id mode difficulty freshCode now).2 mode =
      zremById ((queueOf s mode).filter (fun x => x != opp)) player_id ∧
    (countById (queueOf s mode) player_id ≤ 1 →
      countById (queueOf (find_match s player_id mode difficulty freshCode now).2 mode)
        player_id = 0) ∧
    kvGet (find_match s player_id mode difficulty freshCode now).2.inQueue
      player_id = none ∧
    kvGet (find_match s player_id mode difficulty freshCode now).2.inQueue
      opp.id = none ∧
    (get_room (find_match s player_id mode difficulty freshCode now).2
      freshCode).isSome = true ∧
    ((get_room (find_match s player_id mode difficulty freshCode now).2
      freshCode).getD {}).host_id = some opp.id ∧
    ((get_room (find_match s player_id mode difficulty freshCode now).2
      freshCode).getD {}).host_name = some opp.name ∧
    ((get_room (find_match s player_id mode difficulty freshCode now).2
      freshCode).getD {}).status = some "waiting" ∧
    ((get_room (find_match s player_id mode difficulty freshCode now).2
      freshCode).getD {}).players =
      some [{ id := opp.id, name := opp.name, ready := false, slot := 1 },
            { id := player_id, name := mmPlayerName s player_id, ready := false,
              slot := 2 }] := by
  have hopp := List.find?_some hfind
  have hoppne : opp.id ≠ player_id := by simpa using hopp
  have hfm := find_match_found_unfold s player_id mode difficulty freshCode now opp hfind
  have hmp_iq : kvGet (matchPrunedStore s mode opp).inQueue player_id = some mode := by
    rw [show (matchPrunedStore s mode opp).inQueue = kvDel s.inQueue opp.id from rfl,
      kvGet_kvDel_ne _ _ _ (fun hh => hoppne hh.symm)]
    exact hiq
  have hmp_q : queueOf (matchPrunedStore s mode opp) mode =
      (queueOf s mode).filter (fun x => x != opp) := by
    unfold queueOf
    rw [show (matchPrunedStore s mode opp).queues =
      kvSet s.queues mode ((queueOf s mode).filter (fun x => x != opp)) from rfl,
      kvGet_kvSet_self]
    rfl
  have hmid_iq : (leave_matchmaking (matchPrunedStore s mode opp) player_id).2.inQueue =
      kvDel (matchPrunedStore s mode opp).inQueue player_id :=
    leave_matchmaking_inQueue_eq _ _ mode hmp_iq
  have hmid_q : queueOf (leave_matchmaking (matchPrunedStore s mode opp) player_id).2
      mode = zremById ((queueOf s mode).filter (fun x => x != opp)) player_id := by
    unfold zremById
    cases hf : ((queueOf s mode).filter (fun x => x != opp)).find?
        (fun e => e.id == player_id) with
    | none =>
        have hf' : (queueOf (matchPrunedStore s mode opp) mode).find?
            (fun x => x.id == player_id) = none := by rw [hmp_q]; exact hf
        have hqq := leave_matchmaking_queues_noentry _ _ _ hmp_iq hf'
        unfold queueOf
        rw [hqq]
        exact hmp_q
    | some e =>
        have hf' : (queueOf (matchPrunedStore s mode opp) mode).find?
            (fun x => x.id == player_id) = some e := by rw [hmp_q]; exact hf
        have hqe := leave_matchmaking_queues_entry _ _ _ e hmp_iq hf'
        rw [queueOf_kvSet_self _ _ _ _ hqe, hmp_q]
  have hname : mmPlayerName (create_room
      (leave_matchmaking (matchPrunedStore s mode opp) player_id).2
      opp.id opp.name mode difficulty freshCode now).2 player_id =
      mmPlayerName s player_id := by
    unfold mmPlayerName get_player
    rw [show (create_room (leave_matchmaking (matchPrunedStore s mode opp) player_id).2
        opp.id opp.name mode difficulty freshCode now).2.playerHash =
        (leave_matchmaking (matchPrunedStore s mode opp) player_id).2.playerHash from rfl,
      leave_matchmaking_playerHash_eq]
    rfl
  have hroom := create_join_room_spec
    (leave_matchmaking (matchPrunedStore s mode opp) player_id).2
    opp.id opp.name mode difficulty freshCode now player_id
    (mmPlayerName (create_room
      (leave_matchmaking (matchPrunedStore s mode opp) player_id).2
      opp.id opp.name mode difficulty freshCode now).2 player_id) hoppne
  rw [hname] at hroom
  rw [hfm]
  dsimp only
  rw [hname]
  refine ⟨rfl, ?_, ?_, ?_, ?_, ?_, ?_, ?_, ?_, ?_⟩
  · unfold queueOf
    rw [join_room_queues_eq]
    exact hmid_q
  · intro hle
    unfold queueOf
    rw [join_room_queues_eq]
    show countById (queueOf (leave_matchmaking (matchPrunedStore s mode opp)
      player_id).2 mode) player_id = 0
    rw [hmid_q]
    exact countById_zremById _ _ (le_trans (countById_filter_le _ _ _) hle)
  · rw [join_room_inQueue_eq,
      show (create_room (leave_matchmaking (matchPrunedStore s mode opp) player_id).2
        opp.id opp.name mode difficulty freshCode now).2.inQueue =
        (leave_matchmaking (matchPrunedStore s mode opp) player_id).2.inQueue from rfl,
      hmid_iq]
    exact kvGet_kvDel_self _ _
  · rw [join_room_inQueue_eq,
      show (create_room (leave_matchmaking (matchPrunedStore s mode opp) player_id).2
        opp.id opp.name mode difficulty freshCode now).2.inQueue =
        (leave_matchmaking (matchPrunedStore s mode opp) player_id).2.inQueue from rfl,
      hmid_iq, kvGet_kvDel_ne _ _ _ hoppne,
      show (matchPrunedStore s mode opp).inQueue = kvDel s.inQueue opp.id from rfl]
    exact kvGet_kvDel_self _ _
  · unfold get_room
    rw [hroom]
    rfl
  · unfold get_room
    rw [hroom]
    rfl
  · unfold get_room
    rw [hroom]
    rfl
  · unfold get_room
    rw [hroom]
    rfl
  · unfold get_room
    rw [hroom]
    rfl

def c1wStore : Store :=
  runQOps emptyStore [QOp.joinQ "p2" "Bob" "coop" "MEDIUM" "t1",
                      QOp.joinQ "p1" "Alice" "coop" "MEDIUM" "t2"]

theorem find_match_success_spec_witness :
    (find_match c1wStore "p1" "coop" "MEDIUM" "JJJJJJ" "t3").1 =
      MatchResult.found "JJJJJJ"
        { id := "p2", name := "Bob", difficulty := "MEDIUM", joined_at := "t1" } false ∧
    countById (queueOf (find_match c1wStore "p1" "coop" "MEDIUM" "JJJJJJ" "t3").2
      "coop") "p1" = 0 ∧
    kvGet (find_match c1wStore "p1" "coop" "MEDIUM" "JJJJJJ" "t3").2.inQueue "p1" =
      none ∧
    ((get_room (find_match c1wStore "p1" "coop" "MEDIUM" "JJJJJJ" "t3").2
      "JJJJJJ").getD {}).host_id = some "p2" := by
  have h := find_match_success_spec c1wStore "p1" "coop" "MEDIUM" "JJJJJJ" "t3"
    { id := "p2", name := "Bob", difficulty := "MEDIUM", joined_at := "t1" }
    (by decide) (by decide)
  exact ⟨h.1, h.2.2.1 (by decide), h.2.2.2.1, h.2.2.2.2.2.2.1⟩

end FighterJet
